import Mathlib

/-!
Verification of the `sushichef.py` crawl-extract-package pipeline of the
Ciencia NASA channel builder, as a shallow embedding in Lean 4.

Conventions of the embedding:
* Python strings become `String`; Python `needle in hay` / `hay.find(needle) != -1`
  become `pyIn needle hay` (substring containment over the character lists).
* Python `None` is `Option.none`; a function that may return a document or the
  boolean `False` returns the sum type `PyRet`.
* Network effects are passed in as explicit parameters: the outcome of the
  `k`-th fetch/extraction attempt is a function `Nat → ...Outcome`.
* Output tree nodes (the Python dictionaries built by the various `to_node`
  methods) become the inductive `RNode`.
-/

set_option autoImplicit false
set_option linter.unusedVariables false

namespace CienciaNasa

/-- `leadMatch needle hay` : does `hay` start with `needle` (character lists)? -/
def leadMatch : List Char → List Char → Bool
  | [], _ => true
  | _ :: _, [] => false
  | a :: as, b :: bs => a == b && leadMatch as bs

/-- `hasSub needle hay` : does `needle` occur contiguously inside `hay`? -/
def hasSub (needle : List Char) : List Char → Bool
  | [] => needle.isEmpty
  | c :: rest => leadMatch needle (c :: rest) || hasSub needle rest

/-- Embedding of Python `needle in hay` (equivalently `hay.find(needle) != -1`). -/
def pyIn (needle hay : String) : Bool := hasSub needle.data hay.data

/-- Embedding of Python `s.startswith(p)`. -/
def pyStartsWith (p s : String) : Bool := leadMatch p.data s.data

/-- Node kinds used by the chef (`content_kinds.TOPIC/HTML5/VIDEO/DOCUMENT`). -/
inductive NodeKind where
  | topic
  | html5
  | video
  | document
deriving DecidableEq

/-- An output tree node: the dictionaries produced by the `to_node` methods.
Fields: kind, source_id, title, description, children (Topic only in
practice), file paths (leaf kinds). Metadata constant across the run
(license, author, language) is omitted. -/
inductive RNode where
  | mk (kind : NodeKind) (source_id : String) (title : String)
       (description : String) (children : List RNode) (files : List String)

def RNode.kind : RNode → NodeKind
  | .mk k _ _ _ _ _ => k

def RNode.source_id : RNode → String
  | .mk _ s _ _ _ _ => s

def RNode.title : RNode → String
  | .mk _ _ t _ _ _ => t

def RNode.children : RNode → List RNode
  | .mk _ _ _ _ c _ => c

def RNode.files : RNode → List String
  | .mk _ _ _ _ _ f => f

/-! ## `YouTubeResource.is_youtube` (src/sushichef.py lines 415-420) -/

/-- Embedding of `YouTubeResource.is_youtube`:
```
youtube = url.find("youtube") != -1 or url.find("youtu.be") != -1
if get_channel is False:
    youtube = youtube and url.find("user") == -1 and url.find("/c/") == -1
return youtube
``` -/
def is_youtube (url : String) (get_channel : Bool) : Bool :=
  let youtube := pyIn "youtube" url || pyIn "youtu.be" url
  if get_channel = false then
    youtube && !(pyIn "user" url) && !(pyIn "/c/" url)
  else
    youtube

/-- Spec-side predicate: the URL contains a known video-host marker. -/
def VideoHostMarker (url : String) : Prop :=
  pyIn "youtube" url = true ∨ pyIn "youtu.be" url = true

/-- Spec-side predicate: the URL contains a channel or user listing marker. -/
def ChannelListingMarker (url : String) : Prop :=
  pyIn "user" url = true ∨ pyIn "/c/" url = true

/-! ## `File.download` / `File.to_node` (src/sushichef.py lines 517-554) -/

/-- Embedding of `File.download`. The network response is summarised by its
`content-type` header value `ct`. The body of the `try` is:
```
if download is False: return
response = sess.get(self.source_id)
content_type = response.headers.get('content-type')
if 'application/pdf' in content_type:
    self.filepath = os.path.join(base_path, self.filename)
    ... write chunks ...
```
`self.filepath` starts out as `None` (set in `File.__init__`); the function
returns the final value of `self.filepath`. The `except` clauses only log, so
a caught request exception likewise leaves `filepath` as `None`. -/
def file_download (download : Bool) (ct : String) (base_path filename : String) :
    Option String :=
  if download = false then none
  else if pyIn "application/pdf" ct then some (base_path ++ "/" ++ filename)
  else none

/-- Embedding of `File.to_node`: `None` when `self.filepath is None`, else a
DOCUMENT node whose single file entry is the local path. -/
def file_to_node (source_id name lang : String) (filepath : Option String) :
    Option RNode :=
  match filepath with
  | none => none
  | some fp => some (.mk .document source_id name "" [] [fp])

/-! ## page `download` helper (src/sushichef.py lines 557-574) and
`Topic.to_soup` (lines 111-114) -/

/-- Outcome of one `downloader.read` call: either it raises one of the caught
request exceptions, or it returns a document. -/
inductive FetchOutcome where
  | err
  | ok (doc : String)
deriving DecidableEq

/-- A Python value returned by the `download` helper: a document string or the
boolean `False`. `pyNone` is included so that "is not None" guards can be
expressed; `download` itself never produces it. -/
inductive PyRet where
  | pyStr (s : String)
  | pyBool (b : Bool)
  | pyNone
deriving DecidableEq

/-- Embedding of Python `x is not None`. -/
def isNotNone : PyRet → Bool
  | .pyNone => false
  | _ => true

/-- The `while tries < 4` loop of the module-level `download` helper.
`fuel` is `4 - tries`; the second component counts fetch attempts made.
On an attempt that raises no exception the `else:` branch returns the
document; after 4 failed attempts the fall-through returns `False`. -/
def download_go (outcome : Nat → FetchOutcome) : Nat → Nat → PyRet × Nat
  | 0, tries => (.pyBool false, tries)
  | fuel + 1, tries =>
    match outcome tries with
    | .ok d => (.pyStr d, tries + 1)
    | .err => download_go outcome fuel (tries + 1)

/-- Embedding of the module-level `download(source_id)` helper:
result value and number of fetch attempts made. -/
def download_run (outcome : Nat → FetchOutcome) : PyRet × Nat :=
  download_go outcome 4 0

/-- Embedding of `Topic.to_soup`: the parsed soup (modelled as the raw
document) when the guard `document is not None` passes, else `None`. -/
def topic_to_soup (document : PyRet) : Option PyRet :=
  if isNotNone document then some document else none

theorem download_go_bound (outcome : Nat → FetchOutcome) :
    ∀ fuel tries, (download_go outcome fuel tries).2 ≤ tries + fuel := by
  intro fuel
  induction fuel with
  | zero => intro tries; simp [download_go]
  | succ n ih =>
    intro tries
    cases h : outcome tries with
    | ok d => simp only [download_go, h]; omega
    | err =>
      simp only [download_go, h]
      have := ih (tries + 1)
      omega

theorem download_go_first_ok (outcome : Nat → FetchOutcome) :
    ∀ k fuel tries d, k < fuel → (∀ j, j < k → outcome (tries + j) = .err) →
      outcome (tries + k) = .ok d →
      download_go outcome fuel tries = (.pyStr d, tries + k + 1) := by
  intro k
  induction k with
  | zero =>
    intro fuel tries d hk _ hok
    match fuel, hk with
    | n + 1, _ =>
      simp only [Nat.add_zero] at hok
      simp [download_go, hok]
  | succ m ih =>
    intro fuel tries d hk herr hok
    match fuel, hk with
    | n + 1, hk =>
      have h0 : outcome tries = .err := by
        have := herr 0 (Nat.succ_pos m)
        simpa using this
      simp only [download_go, h0]
      have h1 : ∀ j, j < m → outcome (tries + 1 + j) = .err := by
        intro j hj
        have := herr (j + 1) (by omega)
        have e : tries + (j + 1) = tries + 1 + j := by omega
        rwa [e] at this
      have h2 : outcome (tries + 1 + m) = .ok d := by
        have e : tries + (m + 1) = tries + 1 + m := by omega
        rwa [e] at hok
      have := ih n (tries + 1) d (by omega) h1 h2
      rw [this]
      congr 1
      omega

theorem download_go_all_err (outcome : Nat → FetchOutcome) :
    ∀ fuel tries, (∀ j, j < fuel → outcome (tries + j) = .err) →
      download_go outcome fuel tries = (.pyBool false, tries + fuel) := by
  intro fuel
  induction fuel with
  | zero => intro tries _; simp [download_go]
  | succ n ih =>
    intro tries h
    have h0 : outcome tries = .err := by simpa using h 0 (Nat.succ_pos n)
    simp only [download_go, h0]
    have h1 : ∀ j, j < n → outcome (tries + 1 + j) = .err := by
      intro j hj
      have := h (j + 1) (by omega)
      have e : tries + (j + 1) = tries + 1 + j := by omega
      rwa [e] at this
    rw [ih (tries + 1) h1]
    congr 1
    omega

/-! ## `YouTubeResource.download` / `YouTubeResource.to_node`
(src/sushichef.py lines 427-450, 464-505) -/

/-- Outcome of one loop iteration's `get_video_info` call inside
`YouTubeResource.download`:
* `transient`: the `try` body raises one of
  `(ValueError, IOError, OSError, URLError, ConnectionResetError)` — the first
  `except` clause logs, sleeps 0.8s and lets the loop retry;
* `definitive`: `get_video_info` hits a
  `youtube_dl` `DownloadError`/`ContentTooShortError`/`ExtractorError` (or
  `KeyError`), swallows it and returns `None`, so the `if info is not None`
  body is skipped and the `else: return` fires — no retry;
* `success id title size`: extraction returns an info dict for video `id`
  with the given title, and the downloaded file has `size` bytes. -/
inductive YTOutcome where
  | transient
  | definitive
  | success (id : String) (title : String) (size : Nat)
deriving DecidableEq

/-- The observable state of a `YouTubeResource` after `download`:
final `self.filepath`, final `self.filename`, number of loop iterations that
called `get_video_info` (download attempts), and number of `time.sleep(.8)`
delays taken. -/
structure VidState where
  filepath : Option String
  filename : Option String
  attemptsUsed : Nat
  delays : Nat
deriving DecidableEq

/-- The `for i in range(4)` loop of `YouTubeResource.download`. `fuel` is the
number of remaining iterations, `i` the index of the next attempt. On
`success` the code sets `self.filepath = os.path.join(download_to, id + ".mp4")`
and `self.filename = info["title"]`, then discards the path again if
`os.stat(self.filepath).st_size == 0`; the `else: return` of the
`try` statement exits after any attempt that raises no exception. -/
def yt_download_go (outcome : Nat → YTOutcome) (download_to : String) :
    Nat → Nat → VidState → VidState
  | 0, _, st => st
  | fuel + 1, i, st =>
    match outcome i with
    | .transient =>
      yt_download_go outcome download_to fuel (i + 1)
        { st with attemptsUsed := st.attemptsUsed + 1, delays := st.delays + 1 }
    | .definitive => { st with attemptsUsed := st.attemptsUsed + 1 }
    | .success id title size =>
      { st with
        attemptsUsed := st.attemptsUsed + 1,
        filepath :=
          if size = 0 then none else some (download_to ++ "/" ++ id ++ ".mp4"),
        filename := some title }

/-- Embedding of `YouTubeResource.download` starting from the freshly
constructed resource (`self.filepath = None`, `self.filename = None`). -/
def yt_download (outcome : Nat → YTOutcome) (download_to : String) : VidState :=
  yt_download_go outcome download_to 4 0
    { filepath := none, filename := none, attemptsUsed := 0, delays := 0 }

/-- Embedding of `YouTubeResource.to_node`: `None` when `self.filepath is
None`, else a VIDEO node whose files are the local path plus the subtitle
entries; the title is `self.name if self.name is not None else self.filename`. -/
def yt_to_node (source_id lang : String) (name : Option String) (st : VidState)
    (subs : List String) : Option RNode :=
  match st.filepath with
  | none => none
  | some fp =>
    some (.mk .video source_id
      (match name with
       | some n => n
       | none => st.filename.getD "") "" [] (fp :: subs))

theorem yt_download_go_bound (outcome : Nat → YTOutcome) (download_to : String) :
    ∀ fuel i st, (yt_download_go outcome download_to fuel i st).attemptsUsed ≤
      st.attemptsUsed + fuel := by
  intro fuel
  induction fuel with
  | zero => intro i st; simp [yt_download_go]
  | succ n ih =>
    intro i st
    cases h : outcome i with
    | transient =>
      simp only [yt_download_go, h]
      have := ih (i + 1)
        { st with attemptsUsed := st.attemptsUsed + 1, delays := st.delays + 1 }
      simp only at this
      omega
    | definitive => simp only [yt_download_go, h]; omega
    | success id title size => simp only [yt_download_go, h]; omega

theorem yt_download_go_first_stop (outcome : Nat → YTOutcome) (download_to : String) :
    ∀ k fuel i st, k < fuel → (∀ j, j < k → outcome (i + j) = .transient) →
      outcome (i + k) ≠ .transient →
      (yt_download_go outcome download_to fuel i st).attemptsUsed =
          st.attemptsUsed + k + 1 ∧
        (yt_download_go outcome download_to fuel i st).delays = st.delays + k := by
  intro k
  induction k with
  | zero =>
    intro fuel i st hk _ hstop
    match fuel, hk with
    | n + 1, _ =>
      simp only [Nat.add_zero] at hstop
      cases h : outcome i with
      | transient => exact absurd h hstop
      | definitive => simp [yt_download_go, h]
      | success id title size => simp [yt_download_go, h]
  | succ m ih =>
    intro fuel i st hk htr hstop
    match fuel, hk with
    | n + 1, hk =>
      have h0 : outcome i = .transient := by simpa using htr 0 (Nat.succ_pos m)
      simp only [yt_download_go, h0]
      have h1 : ∀ j, j < m → outcome (i + 1 + j) = .transient := by
        intro j hj
        have := htr (j + 1) (by omega)
        have e : i + (j + 1) = i + 1 + j := by omega
        rwa [e] at this
      have h2 : outcome (i + 1 + m) ≠ .transient := by
        have e : i + (m + 1) = i + 1 + m := by omega
        rwa [e] at hstop
      have := ih n (i + 1)
        { st with attemptsUsed := st.attemptsUsed + 1, delays := st.delays + 1 }
        (by omega) h1 h2
      simp only at this
      omega

theorem yt_download_go_all_transient (outcome : Nat → YTOutcome) (download_to : String) :
    ∀ fuel i st, (∀ j, j < fuel → outcome (i + j) = .transient) →
      (yt_download_go outcome download_to fuel i st).attemptsUsed =
        st.attemptsUsed + fuel := by
  intro fuel
  induction fuel with
  | zero => intro i st _; simp [yt_download_go]
  | succ n ih =>
    intro i st h
    have h0 : outcome i = .transient := by simpa using h 0 (Nat.succ_pos n)
    simp only [yt_download_go, h0]
    have h1 : ∀ j, j < n → outcome (i + 1 + j) = .transient := by
      intro j hj
      have := h (j + 1) (by omega)
      have e : i + (j + 1) = i + 1 + j := by omega
      rwa [e] at this
    have := ih (i + 1)
      { st with attemptsUsed := st.attemptsUsed + 1, delays := st.delays + 1 } h1
    simp only at this
    omega

/-! ## `Article.topic_node` / `Article.html_node` / `Article.add_to_node` /
`Article.to_node` (src/sushichef.py lines 316-357) -/

/-- The fields of an `Article` that `to_node` reads. `video_nodes` and
`pdf_nodes` are the lists built by `build_video_nodes` / `build_pdfs_nodes`
(which append only non-`None` nodes, but `add_to_node` re-checks, so the
element type is `Option RNode`). -/
structure ArticleSt where
  title : String
  source_id : String
  author : String
  filepath : String
  video_nodes : List (Option RNode)
  pdf_nodes : List (Option RNode)

/-- Embedding of `Article.topic_node`: a TOPIC node with the article's source
URL and title and an empty children list. -/
def article_topic_node (a : ArticleSt) : RNode :=
  .mk .topic a.source_id a.title "" [] []

/-- Embedding of `Article.html_node`: an HTML5 leaf whose single file is the
article's zip path. -/
def article_html_node (a : ArticleSt) : RNode :=
  .mk .html5 a.source_id a.title "" [] [a.filepath]

/-- Embedding of `Article.add_to_node`: appends each non-`None` node of
`nodes` to `node["children"]`. -/
def add_to_node (node : RNode) (nodes : List (Option RNode)) : RNode :=
  match node with
  | .mk k s t d c f => .mk k s t d (c ++ nodes.reduceOption) f

/-- Appends one child to a node's children (`node["children"].append(...)`). -/
def append_child (node : RNode) (child : RNode) : RNode :=
  match node with
  | .mk k s t d c f => .mk k s t d (c ++ [child]) f

/-- Embedding of `Article.to_node`:
```
if len(self.video_nodes) > 0 or len(self.pdf_nodes) > 0:
    node = self.topic_node()
    node["children"].append(self.html_node())
    self.add_to_node(node, self.video_nodes)
    self.add_to_node(node, self.pdf_nodes)
else:
    node = self.html_node()
return node
``` -/
def article_to_node (a : ArticleSt) : RNode :=
  if 0 < a.video_nodes.length ∨ 0 < a.pdf_nodes.length then
    add_to_node
      (add_to_node (append_child (article_topic_node a) (article_html_node a))
        a.video_nodes)
      a.pdf_nodes
  else
    article_html_node a

/-! ## `Article.to_local_images` (src/sushichef.py lines 205-219) -/

/-- `urljoin(BASE_URL, path)` for a root-relative `path` (one starting with
`/`): the site's scheme and host with `path` as the new path. -/
def urljoinBase (path : String) : String := "https://ciencia.nasa.gov" ++ path

/-- The characters after the last `/` of a character list (`acc` holds the
reversed current segment). -/
def lastSegment (acc : List Char) : List Char → List Char
  | [] => acc.reverse
  | c :: rest => if c = '/' then lastSegment [] rest else lastSegment (c :: acc) rest

/-- Modelled from the spec: `get_name_from_url` is imported from `utils.py`,
which is not among the sources; the spec (§4.2 step 5) says the local
filename is "derived from the URL (stable, deterministic — same URL always
maps to the same filename)". Modelled as the final `/`-separated segment of
the URL. -/
def get_name_from_url (url : String) : String :=
  ⟨lastSegment [] url.data⟩

/-- Embedding of the body of `Article.to_local_images`. An `<img>` element is
represented by its optional `src` attribute (`none` = the `img["src"]` lookup
raises `KeyError` and the element is skipped). The pair returned is the list
of elements after in-place rewriting together with the `images_urls` dict
(an insertion-ordered association list):
```
for img in content.findAll("img"):
    img_src = img["src"]            # KeyError -> continue
    if img_src.startswith("/"):
        img_src = urljoin(BASE_URL, img_src)
    filename = get_name_from_url(img_src)
    if img_src not in images_urls and img_src:
        img["src"] = filename
        images_urls[img_src] = filename
``` -/
def to_local_images_go :
    List (Option String) → List (String × String) →
      List (Option String) × List (String × String)
  | [], m => ([], m)
  | none :: rest, m =>
    let r := to_local_images_go rest m
    (none :: r.1, r.2)
  | some src :: rest, m =>
    let src1 := if pyStartsWith "/" src then urljoinBase src else src
    let filename := get_name_from_url src1
    if src1 ∉ m.map Prod.fst ∧ src1 ≠ "" then
      let r := to_local_images_go rest (m ++ [(src1, filename)])
      (some filename :: r.1, r.2)
    else
      let r := to_local_images_go rest m
      (some src :: r.1, r.2)

/-- `Article.to_local_images` starts from an empty `images_urls` dict. -/
def to_local_images (imgs : List (Option String)) :
    List (Option String) × List (String × String) :=
  to_local_images_go imgs []

theorem to_local_images_aux (rest : List (Option String))
    (ih : ∀ m : List (String × String), (m.map Prod.fst).Nodup →
      ((to_local_images_go rest m).2.map Prod.fst).Nodup)
    (s1 orig : String) (m : List (String × String))
    (hm : (m.map Prod.fst).Nodup) :
    (((if s1 ∉ m.map Prod.fst ∧ s1 ≠ "" then
        (some (get_name_from_url s1) ::
            (to_local_images_go rest (m ++ [(s1, get_name_from_url s1)])).1,
          (to_local_images_go rest (m ++ [(s1, get_name_from_url s1)])).2)
      else
        (some orig :: (to_local_images_go rest m).1,
          (to_local_images_go rest m).2)) :
        List (Option String) × List (String × String)).2.map Prod.fst).Nodup := by
  by_cases hc : s1 ∉ m.map Prod.fst ∧ s1 ≠ ""
  · rw [if_pos hc]
    apply ih
    rw [List.map_append]
    simp only [List.map_cons, List.map_nil]
    rw [List.nodup_append]
    refine ⟨hm, List.nodup_singleton _, ?_⟩
    intro x hx hx2
    rw [List.mem_singleton] at hx2
    subst hx2
    exact hc.1 hx
  · rw [if_neg hc]
    exact ih m hm

theorem to_local_images_go_nodup_keys :
    ∀ (imgs : List (Option String)) (m : List (String × String)),
      (m.map Prod.fst).Nodup →
      ((to_local_images_go imgs m).2.map Prod.fst).Nodup := by
  intro imgs
  induction imgs with
  | nil => intro m hm; simpa [to_local_images_go] using hm
  | cons img rest ih =>
    intro m hm
    cases img with
    | none => simpa [to_local_images_go] using ih m hm
    | some src =>
      simp only [to_local_images_go]
      split
      · exact to_local_images_aux rest ih (urljoinBase src) src m hm
      · exact to_local_images_aux rest ih src src m hm

/-! ## `Topic.tree_nodes` (src/sushichef.py lines 93-103, 124-134)

`Topic.__init__` creates `self.tree_nodes = OrderedDict()` and
`Topic.to_node` emits `children=list(self.tree_nodes.values())`. -/

/-- The keys (article source URLs) of the ordered mapping. -/
def odKeys (m : List (String × RNode)) : List String := m.map Prod.fst

/-- Modelled from the spec: the crawl loop that fills `tree_nodes` is stubbed
in the source (`Topic.articles` / `TopicPage.articles` yield nothing), so the
single insertion `tree_nodes[url] = node` is modelled from the spec's
"ordered mapping from article-source-URL → Article-derived node (insertion
order = discovery order; duplicate source URLs overwrite...)", with Python
`OrderedDict.__setitem__` semantics: an existing key keeps its position and
gets the new value, a fresh key is appended. -/
def odInsert (m : List (String × RNode)) (k : String) (v : RNode) :
    List (String × RNode) :=
  if k ∈ odKeys m then m.map (fun p => if p.1 = k then (k, v) else p)
  else m ++ [(k, v)]

/-- Folding a discovery sequence of `(source URL, node)` pairs into the
ordered mapping, starting from `m`. -/
def odInsertAll (m : List (String × RNode)) :
    List (String × RNode) → List (String × RNode)
  | [] => m
  | s :: rest => odInsertAll (odInsert m s.1 s.2) rest

/-- Python `dict.get`-style lookup: value of the first (unique) entry for `k`. -/
def odGet (m : List (String × RNode)) (k : String) : Option RNode :=
  match m with
  | [] => none
  | p :: rest => if p.1 = k then some p.2 else odGet rest k

/-- The discovery order of distinct URLs: first occurrences, skipping those in
`seen`. -/
def firstOcc (seen : List String) : List String → List String
  | [] => []
  | u :: rest => if u ∈ seen then firstOcc seen rest else u :: firstOcc (u :: seen) rest

/-- The last value written for key `k` in the discovery sequence. -/
def lastVal (stubs : List (String × RNode)) (k : String) : Option RNode :=
  match stubs with
  | [] => none
  | s :: rest =>
    match lastVal rest k with
    | some v => some v
    | none => if s.1 = k then some s.2 else none

theorem firstOcc_congr :
    ∀ (l : List String) (seen seen2 : List String),
      (∀ x, x ∈ seen ↔ x ∈ seen2) → firstOcc seen l = firstOcc seen2 l := by
  intro l
  induction l with
  | nil => intro seen seen2 h; rfl
  | cons u rest ih =>
    intro seen seen2 h
    simp only [firstOcc]
    by_cases hu : u ∈ seen
    · rw [if_pos hu, if_pos ((h u).mp hu)]
      exact ih seen seen2 h
    · rw [if_neg hu, if_neg (fun hc => hu ((h u).mpr hc))]
      congr 1
      apply ih
      intro x
      simp only [List.mem_cons]
      exact or_congr Iff.rfl (h x)

theorem odKeys_insert (m : List (String × RNode)) (k : String) (v : RNode) :
    odKeys (odInsert m k v) = if k ∈ odKeys m then odKeys m else odKeys m ++ [k] := by
  simp only [odKeys, odInsert]
  by_cases hk : k ∈ List.map Prod.fst m
  · simp only [if_pos hk, List.map_map]
    apply List.map_congr_left
    intro p hp
    by_cases hpk : p.1 = k
    · simp [Function.comp, hpk]
    · simp [Function.comp, hpk]
  · simp only [if_neg hk]
    simp

theorem odKeys_insertAll :
    ∀ (stubs : List (String × RNode)) (m : List (String × RNode)),
      odKeys (odInsertAll m stubs) =
        odKeys m ++ firstOcc (odKeys m) (stubs.map Prod.fst) := by
  intro stubs
  induction stubs with
  | nil => intro m; simp [odInsertAll, firstOcc]
  | cons s rest ih =>
    intro m
    simp only [odInsertAll, List.map_cons, firstOcc]
    by_cases hk : s.1 ∈ odKeys m
    · rw [if_pos hk, ih (odInsert m s.1 s.2), odKeys_insert, if_pos hk]
    · rw [if_neg hk, ih (odInsert m s.1 s.2), odKeys_insert, if_neg hk]
      rw [List.append_assoc]
      simp only [List.singleton_append]
      congr 2
      apply firstOcc_congr
      intro x
      simp [List.mem_append, List.mem_cons]
      tauto

theorem firstOcc_nodup :
    ∀ (l seen : List String),
      (firstOcc seen l).Nodup ∧ ∀ x ∈ firstOcc seen l, x ∉ seen := by
  intro l
  induction l with
  | nil => intro seen; simp [firstOcc]
  | cons u rest ih =>
    intro seen
    simp only [firstOcc]
    by_cases hu : u ∈ seen
    · rw [if_pos hu]; exact ih seen
    · rw [if_neg hu]
      have h1 := ih (u :: seen)
      refine ⟨List.nodup_cons.mpr ⟨?_, h1.1⟩, ?_⟩
      · intro hc
        exact (h1.2 u hc) (List.mem_cons_self u seen)
      · intro x hx
        rcases List.mem_cons.mp hx with rfl | hx2
        · exact hu
        · intro hc
          exact (h1.2 x hx2) (List.mem_cons.mpr (Or.inr hc))

theorem odGet_map_overwrite :
    ∀ (m : List (String × RNode)) (a : String) (v : RNode), a ∈ odKeys m →
      odGet (m.map (fun p => if p.1 = a then (a, v) else p)) a = some v := by
  intro m
  induction m with
  | nil => intro a v h; simp [odKeys] at h
  | cons p rest ih =>
    intro a v h
    by_cases hpa : p.1 = a
    · simp [odGet, hpa]
    · simp only [List.map_cons, if_neg hpa, odGet]
      apply ih
      simp only [odKeys, List.map_cons, List.mem_cons] at h
      rcases h with h1 | h1
      · exact absurd h1.symm hpa
      · exact h1

theorem odGet_map_ne :
    ∀ (m : List (String × RNode)) (a : String) (v : RNode) (k : String), k ≠ a →
      odGet (m.map (fun p => if p.1 = a then (a, v) else p)) k = odGet m k := by
  intro m
  induction m with
  | nil => intro a v k h; rfl
  | cons p rest ih =>
    intro a v k h
    by_cases hpa : p.1 = a
    · simp only [List.map_cons, if_pos hpa, odGet]
      rw [if_neg (fun hc : a = k => h hc.symm), if_neg (fun hc : p.1 = k => h (hpa ▸ hc).symm)]
      exact ih a v k h
    · simp only [List.map_cons, if_neg hpa, odGet]
      by_cases hpk : p.1 = k
      · rw [if_pos hpk, if_pos hpk]
      · rw [if_neg hpk, if_neg hpk]
        exact ih a v k h

theorem odGet_append_one :
    ∀ (m : List (String × RNode)) (a : String) (v : RNode) (k : String),
      a ∉ odKeys m →
      odGet (m ++ [(a, v)]) k = if k = a then some v else odGet m k := by
  intro m
  induction m with
  | nil =>
    intro a v k h
    simp only [List.nil_append, odGet]
    by_cases hak : a = k
    · rw [if_pos hak, if_pos hak.symm]
    · rw [if_neg hak, if_neg (fun hc : k = a => hak hc.symm)]
  | cons p rest ih =>
    intro a v k h
    have hpa : p.1 ≠ a := by
      intro hc
      exact h (by simp [odKeys, hc])
    have hrest : a ∉ odKeys rest := by
      intro hc
      exact h (by simp [odKeys] at hc ⊢; exact Or.inr hc)
    have hstep : (p :: rest) ++ [(a, v)] = p :: (rest ++ [(a, v)]) := rfl
    rw [hstep]
    simp only [odGet]
    by_cases hpk : p.1 = k
    · rw [if_pos hpk, if_neg (fun hc : k = a => hpa (hpk.trans hc)), if_pos hpk]
    · rw [if_neg hpk, ih a v k hrest]
      by_cases hka : k = a
      · rw [if_pos hka, if_pos hka]
      · rw [if_neg hka, if_neg hka, if_neg hpk]

theorem odGet_insert (m : List (String × RNode)) (a : String) (v : RNode) (k : String) :
    odGet (odInsert m a v) k = if k = a then some v else odGet m k := by
  by_cases hk : a ∈ odKeys m
  · simp only [odInsert, if_pos hk]
    by_cases hka : k = a
    · subst hka
      rw [if_pos rfl]
      exact odGet_map_overwrite m k v hk
    · rw [if_neg hka]
      exact odGet_map_ne m a v k hka
  · simp only [odInsert, if_neg hk]
    exact odGet_append_one m a v k hk

theorem odGet_insertAll :
    ∀ (stubs : List (String × RNode)) (m : List (String × RNode)) (k : String),
      odGet (odInsertAll m stubs) k =
        match lastVal stubs k with
        | some v => some v
        | none => odGet m k := by
  intro stubs
  induction stubs with
  | nil => intro m k; rfl
  | cons s rest ih =>
    intro m k
    simp only [odInsertAll, lastVal]
    rw [ih (odInsert m s.1 s.2) k]
    cases lastVal rest k with
    | some v => rfl
    | none =>
      simp only [odGet_insert]
      by_cases hks : k = s.1
      · rw [if_pos hks, if_pos hks.symm]
      · rw [if_neg hks, if_neg (fun hc : s.1 = k => hks hc.symm)]

/-! ## `Topic.articles` / `TopicPage` pagination (src/sushichef.py lines
116-122, 136-153) -/

/-- Python `"?page=".format(page)`: the format string contains no replacement
field, so the argument is ignored and the string is returned unchanged. -/
def pyFormatNoField (s : String) (arg : Nat) : String := s

/-- Embedding of `TopicPage.__init__`'s
`self.source_id = topic.source_id + "?page=".format(page)`. -/
def topicPage_source_id (topicUrl : String) (page : Nat) : String :=
  topicUrl ++ pyFormatNoField "?page=" page

/-- Embedding of `TopicPage.articles` over the listing rows of the fetched
page: the `for` loop prints data of the first row and `break`s, and the
method falls off the end — it returns `None` and yields no stubs. -/
def topicPage_articles {α : Type} (rows : List α) : Option (List α) := none

/-- Embedding of `Topic.articles`:
```
page = 0
articles = [1, 2]
while len(articles) > 1:
    articles = TopicPage(self, page=0).articles()
    page += 1
    break
```
Given the per-page listing rows of the site, returns the pair of the
listing-page URLs requested and the number of stubs yielded into the topic.
The unconditional `break` ends the loop after its first iteration, and the
page argument passed to `TopicPage` is the literal `0`. -/
def topic_articles {α : Type} (topicUrl : String) (rows : Nat → List α) :
    List String × Nat :=
  if 1 < ([1, 2] : List Nat).length then
    ([topicPage_source_id topicUrl 0], 0)
  else ([], 0)

/-! ## `Browser.run` and `CienciaNasaChef.scrape`
(src/sushichef.py lines 74-91, 626-664) -/

/-- The fixed topic set `TOPICS` in its insertion (iteration) order. -/
def TOPICS : List (String × String) :=
  [("Ciencia Especial", "ciencias-espaciales"),
   ("Ciencia Terrestre", "ciencias-de-la-tierra"),
   ("Ciencia Fisica", "ciencias-f%C3%ADsicas"),
   ("Miscelanea", "m%C3%A1s-all%C3%A1-de-la-coheter%C3%ADa")]

/-- Lexicographic less-than on character lists by code point — Python's
string comparison. -/
def charListLt : List Char → List Char → Bool
  | [], [] => false
  | [], _ :: _ => true
  | _ :: _, [] => false
  | x :: xs, y :: ys =>
    if x.toNat < y.toNat then true
    else if y.toNat < x.toNat then false
    else charListLt xs ys

/-- Python string `<`. -/
def pyStrLt (a b : String) : Bool := charListLt a.data b.data

/-- Insertion step of an insertion sort by title. -/
def insertByTitle (p : String × String) :
    List (String × String) → List (String × String)
  | [] => [p]
  | q :: rest => if pyStrLt p.1 q.1 then p :: q :: rest else q :: insertByTitle p rest

/-- `sorted(TOPICS.items(), key=lambda x: x[0])` as an insertion sort on the
topic title. -/
def pySorted (l : List (String × String)) : List (String × String) :=
  l.foldr insertByTitle []

/-- Embedding of `Topic.to_node` (lines 124-134): a TOPIC node with
`source_id = self.title`, the scraped description `descr`, and children
`list(self.tree_nodes.values())`. -/
def topic_to_node (title descr : String) (tree_nodes : List (String × RNode)) :
    RNode :=
  .mk .topic title title descr (tree_nodes.map Prod.snd) []

/-- Embedding of `Browser.run`: iterates `sorted(TOPICS.items(), key=lambda
x: x[0])`, builds the `Topic` — whose `articles()` call yields nothing into
`tree_nodes`, see `topic_articles` — and yields `topic.to_node()`; the
unconditional `break` stops after the first topic. `descOf` gives each
topic's scraped description. -/
def browser_run (descOf : String → String) : List RNode :=
  match pySorted TOPICS with
  | [] => []
  | (title, _) :: _ => [topic_to_node title (descOf title) []]

/-- The channel dictionary assembled by `CienciaNasaChef.scrape` (the fields
the claims inspect). -/
structure Channel where
  source_domain : String
  source_id : String
  title : String
  description : String
  children : List RNode

/-- The channel description literal of `scrape`; the code truncates it to 400
characters with `[:400]`. -/
def CHANNEL_DESC : String :=
  "Exploración de las actividades de ciencia de NASA con blogs, videos, y artículos cortos adecuados por todas las edades. Este recurso incluye contenidos sobre la ciencia espacial, la ciencia terrestre, la ciencia física, y más.\n"

/-- Embedding of `CienciaNasaChef.scrape`: builds `channel_tree` with
`children=[]`; the final loop `for node in Browser(BASE_URL).run():
print(node)` prints the crawled topic nodes and never appends them, so the
returned channel keeps its empty children list. -/
def scrape (descOf : String → String) : Channel :=
  { source_domain := "https://ciencia.nasa.gov/",
    source_id := "https://ciencia.nasa.gov/",
    title := "Ciencia NASA",
    description := CHANNEL_DESC.take 400,
    children := [] }

end CienciaNasa

namespace CienciaNasa

/-- C9: `is_youtube` includes exactly the URLs containing a video-host marker
("youtube" or "youtu.be"); unless channel URLs are explicitly requested
(`get_channel = true`) it additionally excludes URLs containing a channel or
user listing marker ("user" or "/c/"). In particular a URL containing
`/c/ChannelName` is excluded by default and one containing `youtu.be/abc123`
is included. -/
theorem c9_is_youtube_classification :
    (∀ url : String, is_youtube url true = true ↔ VideoHostMarker url) ∧
    (∀ url : String,
      is_youtube url false = true ↔ VideoHostMarker url ∧ ¬ ChannelListingMarker url) ∧
    is_youtube "https://www.youtube.com/c/ChannelName" false = false ∧
    is_youtube "https://youtu.be/abc123" false = true := by
  refine ⟨?_, ?_, by decide, by decide⟩
  · intro url
    simp [is_youtube, VideoHostMarker, Bool.or_eq_true]
  · intro url
    simp [is_youtube, VideoHostMarker, ChannelListingMarker, Bool.and_eq_true,
      Bool.or_eq_true, not_or, Bool.not_eq_true']
    tauto

/-- C1: evaluation of `Topic.articles` at the spec's synthetic listing with
per-page row counts `[5, 3, 1, 99]`: the code requests the single URL
`<topic>?page=` — the page number is never interpolated (the format string
has no replacement field) and the page argument is always the literal 0 —
and yields 0 stubs, while the claim expects the three URLs for pages 0, 1, 2
and 9 stubs. -/
theorem c1_pagination_code_eval :
    topic_articles "https://ciencia.nasa.gov/ciencias-espaciales"
        (fun p => List.replicate (List.getD [5, 3, 1, 99] p 0) ()) =
      (["https://ciencia.nasa.gov/ciencias-espaciales?page="], 0) ∧
    topicPage_articles (List.replicate 5 ()) = none ∧
    (["https://ciencia.nasa.gov/ciencias-espaciales?page="] ≠
      ["https://ciencia.nasa.gov/ciencias-espaciales?page=0",
       "https://ciencia.nasa.gov/ciencias-espaciales?page=1",
       "https://ciencia.nasa.gov/ciencias-espaciales?page=2"]) ∧
    (0 : Nat) ≠ 9 := by
  refine ⟨rfl, rfl, by decide, by decide⟩

/-- C3: evaluation of the assembled channel: `scrape` returns a channel whose
children list is empty — the crawl loop prints the topic nodes instead of
appending them — and `Browser.run` only ever yields the alphabetically first
topic of the four (`break` after the first iteration), so the channel does
not get one Topic child per entry of the fixed four-element topic set. -/
theorem c3_channel_children_eval (descOf : String → String) :
    (scrape descOf).children = [] ∧
    (browser_run descOf).map RNode.title = ["Ciencia Especial"] ∧
    TOPICS.length = 4 ∧
    (scrape descOf).children.length ≠ TOPICS.length := by
  refine ⟨rfl, ?_, rfl, by simp [scrape, TOPICS]⟩
  rfl

/-- C4: folding any discovery sequence of `(article source URL, node)` pairs
into a topic's `tree_nodes` ordered mapping yields at most one entry per
source URL (the key list has no duplicates), the key order is the first-
occurrence discovery order, and a duplicate source URL overwrites the
existing entry (lookup returns the last value written); concretely, inserting
the same URL twice leaves a single entry holding the second node. -/
theorem c4_tree_nodes_dedup :
    (∀ stubs : List (String × RNode),
      (odKeys (odInsertAll [] stubs)).Nodup ∧
      odKeys (odInsertAll [] stubs) = firstOcc [] (stubs.map Prod.fst) ∧
      ∀ k, odGet (odInsertAll [] stubs) k = lastVal stubs k) ∧
    odInsertAll []
        [("https://ciencia.nasa.gov/a", .mk .html5 "u" "t1" "" [] ["a.zip"]),
         ("https://ciencia.nasa.gov/a", .mk .html5 "u" "t2" "" [] ["b.zip"])] =
      [("https://ciencia.nasa.gov/a", .mk .html5 "u" "t2" "" [] ["b.zip"])] := by
  constructor
  · intro stubs
    have hkeys : odKeys (odInsertAll [] stubs) = firstOcc [] (stubs.map Prod.fst) := by
      rw [odKeys_insertAll stubs []]
      simp [odKeys, firstOcc]
    refine ⟨?_, hkeys, ?_⟩
    · rw [hkeys]
      exact (firstOcc_nodup (stubs.map Prod.fst) []).1
    · intro k
      rw [odGet_insertAll stubs [] k]
      cases h : lastVal stubs k <;> simp [odGet]
  · rfl

/-- C10: the page-download helper makes at most 4 fetch attempts, returns the
fetched document on the first attempt that raises no exception, returns the
boolean `False` (never `None`) when all 4 attempts fail, and the caller guard
`document is not None` (as in `Topic.to_soup`) does not filter out such a
totally failed fetch. -/
theorem c10_download_helper (outcome : Nat → FetchOutcome) :
    (download_run outcome).2 ≤ 4 ∧
    (download_run outcome).1 ≠ PyRet.pyNone ∧
    (∀ k d, k < 4 → (∀ j, j < k → outcome j = .err) → outcome k = .ok d →
      download_run outcome = (.pyStr d, k + 1)) ∧
    ((∀ j, j < 4 → outcome j = .err) →
      download_run outcome = (.pyBool false, 4) ∧
      topic_to_soup (download_run outcome).1 = some (.pyBool false)) := by
  refine ⟨?_, ?_, ?_, ?_⟩
  · simpa using download_go_bound outcome 4 0
  · have hnn : ∀ fuel tries, (download_go outcome fuel tries).1 ≠ PyRet.pyNone := by
      intro fuel
      induction fuel with
      | zero => intro tries; simp [download_go]
      | succ n ih =>
        intro tries
        cases h : outcome tries with
        | ok d => simp [download_go, h]
        | err => simp only [download_go, h]; exact ih (tries + 1)
    exact hnn 4 0
  · intro k d hk herr hok
    have := download_go_first_ok outcome k 4 0 d hk (by simpa using herr) (by simpa using hok)
    simpa [download_run] using this
  · intro hall
    have h4 := download_go_all_err outcome 4 0 (by simpa using hall)
    have hr : download_run outcome = (.pyBool false, 4) := by
      simpa [download_run] using h4
    refine ⟨hr, ?_⟩
    rw [hr]
    simp [topic_to_soup, isNotNone]

/-- Witness for C10: with every attempt failing, the helper returns the pair
(`False`, 4 attempts) and the soup guard still passes. -/
theorem c10_download_helper_witness :
    download_run (fun _ => FetchOutcome.err) = (.pyBool false, 4) ∧
    topic_to_soup (download_run (fun _ => FetchOutcome.err)).1 =
      some (.pyBool false) :=
  (c10_download_helper (fun _ => FetchOutcome.err)).2.2.2 (fun _ _ => rfl)

/-- C8 counterexample: for the response content-type
`"application/pdf; charset=utf-8"`, which is not exactly `"application/pdf"`,
`File.download` nevertheless persists the file (sets a local path), so the
content-type is not validated to be *exactly* the expected document type. -/
theorem c8_counterexample :
    file_download true "application/pdf; charset=utf-8" "chefdata/pdfs" "a.pdf"
      = some "chefdata/pdfs/a.pdf" ∧
    "application/pdf; charset=utf-8" ≠ "application/pdf" := by
  constructor
  · decide
  · decide

/-- C8 (amended): `File.download` persists bytes iff the response content-type
*contains* `"application/pdf"` as a substring; when it does not, no file is
written, the local path stays absent, and `File.to_node` produces no Document
node. -/
theorem c8_content_type_guard (ct base fn : String)
    (h : pyIn "application/pdf" ct = false) :
    file_download true ct base fn = none ∧
    (∀ sid nm lang,
      file_to_node sid nm lang (file_download true ct base fn) = none) := by
  have hd : file_download true ct base fn = none := by
    simp [file_download, h]
  exact ⟨hd, fun sid nm lang => by rw [hd]; rfl⟩

/-- Witness for C8: a `text/html` response is not persisted and yields no
Document node. -/
theorem c8_content_type_guard_witness :
    file_download true "text/html; charset=utf-8" "chefdata/pdfs" "a.pdf" = none ∧
    file_to_node "u" "n" "es"
      (file_download true "text/html; charset=utf-8" "chefdata/pdfs" "a.pdf") = none := by
  have h := c8_content_type_guard "text/html; charset=utf-8" "chefdata/pdfs" "a.pdf"
    (by decide)
  exact ⟨h.1, h.2 "u" "n" "es"⟩

/-- C6: `YouTubeResource.download` makes at most 4 attempts; if the first `k`
attempts are transient errors (value/IO/OS/URL/connection-reset conditions,
each followed by the short fixed delay) and attempt `k` is not transient
(a success, or a definitive extraction failure that `get_video_info` turns
into `None`), the loop stops right there, having used exactly `k + 1`
attempts and `k` delays — in particular a definitive failure on the first
attempt returns immediately without using the remaining attempts. -/
theorem c6_yt_download_retry (outcome : Nat → YTOutcome) (download_to : String) :
    (yt_download outcome download_to).attemptsUsed ≤ 4 ∧
    (∀ k, k < 4 → (∀ j, j < k → outcome j = .transient) →
      outcome k ≠ .transient →
      (yt_download outcome download_to).attemptsUsed = k + 1 ∧
        (yt_download outcome download_to).delays = k) ∧
    ((∀ j, j < 4 → outcome j = .transient) →
      (yt_download outcome download_to).attemptsUsed = 4) := by
  refine ⟨?_, ?_, ?_⟩
  · simpa using yt_download_go_bound outcome download_to 4 0
      { filepath := none, filename := none, attemptsUsed := 0, delays := 0 }
  · intro k hk htr hstop
    have := yt_download_go_first_stop outcome download_to k 4 0
      { filepath := none, filename := none, attemptsUsed := 0, delays := 0 }
      hk (by simpa using htr) (by simpa using hstop)
    simpa [yt_download] using this
  · intro h
    have := yt_download_go_all_transient outcome download_to 4 0
      { filepath := none, filename := none, attemptsUsed := 0, delays := 0 }
      (by simpa using h)
    simpa [yt_download] using this

/-- Witness for C6: a definitive extraction failure on the first attempt uses
exactly one attempt and no delay. -/
theorem c6_yt_download_retry_witness :
    (yt_download (fun _ => YTOutcome.definitive) "chefdata/videos").attemptsUsed = 1 ∧
    (yt_download (fun _ => YTOutcome.definitive) "chefdata/videos").delays = 0 :=
  (c6_yt_download_retry (fun _ => YTOutcome.definitive) "chefdata/videos").2.1 0
    (by omega) (fun j hj => absurd hj (Nat.not_lt_zero j)) (by simp)

/-- C7: a video download whose first attempt succeeds but produces a zero-byte
file discards the local path (`self.filepath = None`), and `to_node` then
returns `None` — no Video node for that resource appears in the tree; more
generally `to_node` returns `None` whenever no local file path is set. -/
theorem c7_zero_byte_video (outcome : Nat → YTOutcome) (download_to id title : String)
    (h : outcome 0 = YTOutcome.success id title 0) :
    (yt_download outcome download_to).filepath = none ∧
    (∀ sid lang nm subs,
      yt_to_node sid lang nm (yt_download outcome download_to) subs = none) ∧
    (∀ sid lang nm subs st, st.filepath = none →
      yt_to_node sid lang nm st subs = none) := by
  have hfp : (yt_download outcome download_to).filepath = none := by
    simp [yt_download, yt_download_go, h]
  refine ⟨hfp, fun sid lang nm subs => ?_, fun sid lang nm subs st hst => ?_⟩
  · simp [yt_to_node, hfp]
  · simp [yt_to_node, hst]

/-- Witness for C7: a concrete zero-byte success produces no filepath and no
Video node. -/
theorem c7_zero_byte_video_witness :
    (yt_download (fun _ => YTOutcome.success "dQw4" "T" 0) "chefdata/videos").filepath
        = none ∧
    yt_to_node "https://youtu.be/dQw4" "es" none
      (yt_download (fun _ => YTOutcome.success "dQw4" "T" 0) "chefdata/videos") []
        = none := by
  have h := c7_zero_byte_video (fun _ => YTOutcome.success "dQw4" "T" 0)
    "chefdata/videos" "dQw4" "T" rfl
  exact ⟨h.1, h.2.1 "https://youtu.be/dQw4" "es" none []⟩

/-- C2 counterexample: an article with zero video nodes and zero PDF nodes
produces the flat HTML5 node, not a Topic-kind wrapper — the `else` branch of
`Article.to_node` special-cases the flat form. -/
theorem c2_counterexample :
    article_to_node
        { title := "t", source_id := "https://ciencia.nasa.gov/a",
          author := "", filepath := "p/t.zip", video_nodes := [], pdf_nodes := [] } =
      article_html_node
        { title := "t", source_id := "https://ciencia.nasa.gov/a",
          author := "", filepath := "p/t.zip", video_nodes := [], pdf_nodes := [] } ∧
    (article_to_node
        { title := "t", source_id := "https://ciencia.nasa.gov/a",
          author := "", filepath := "p/t.zip", video_nodes := [], pdf_nodes := [] }).kind
      ≠ NodeKind.topic := by
  constructor
  · rfl
  · intro h
    simp [article_to_node, article_html_node, RNode.kind] at h

/-- C2 (amended): when an article has at least one video node or at least one
PDF node, `to_node` wraps: it returns a Topic-kind group (same source URL and
title as the article) whose children are the HTML node followed by the
non-`None` video nodes and then the non-`None` PDF nodes; when it has neither,
it returns the flat HTML5 node. -/
theorem c2_to_node_grouping (a : ArticleSt) :
    (a.video_nodes ≠ [] ∨ a.pdf_nodes ≠ [] →
      article_to_node a =
        .mk .topic a.source_id a.title ""
          (article_html_node a ::
            (a.video_nodes.reduceOption ++ a.pdf_nodes.reduceOption)) []) ∧
    (a.video_nodes = [] → a.pdf_nodes = [] →
      article_to_node a = article_html_node a) := by
  constructor
  · intro h
    have hc : 0 < a.video_nodes.length ∨ 0 < a.pdf_nodes.length := by
      rcases h with h | h
      · exact Or.inl (List.length_pos.mpr h)
      · exact Or.inr (List.length_pos.mpr h)
    simp [article_to_node, hc, add_to_node, append_child, article_topic_node]
  · intro hv hp
    simp [article_to_node, hv, hp]

/-- Witness for C2: an article whose only extra is one PDF node gets the
Topic-kind wrapper with the HTML node and that PDF node as children. -/
theorem c2_to_node_grouping_witness :
    article_to_node
        { title := "t", source_id := "u", author := "", filepath := "p.zip",
          video_nodes := [],
          pdf_nodes := [some (.mk .document "d" "n" "" [] ["f.pdf"])] } =
      .mk .topic "u" "t" ""
        [article_html_node
          { title := "t", source_id := "u", author := "", filepath := "p.zip",
            video_nodes := [],
            pdf_nodes := [some (.mk .document "d" "n" "" [] ["f.pdf"])] },
         .mk .document "d" "n" "" [] ["f.pdf"]] [] := by
  have hgrp := (c2_to_node_grouping
    { title := "t", source_id := "u", author := "", filepath := "p.zip",
      video_nodes := [],
      pdf_nodes := [some (.mk .document "d" "n" "" [] ["f.pdf"])] }).1
    (Or.inr (by simp))
  simpa [List.reduceOption] using hgrp

/-- C5 counterexample: when the same image source URL occurs in two `<img>`
elements, only the first occurrence's `src` attribute is rewritten — the
second keeps the original remote URL (the `img["src"] = filename` assignment
sits inside the `if img_src not in images_urls` guard), so the claim that both
`src` attributes are rewritten fails. -/
theorem c5_counterexample :
    to_local_images [some "https://e.org/a.png", some "https://e.org/a.png"] =
      ([some "a.png", some "https://e.org/a.png"],
        [("https://e.org/a.png", "a.png")]) ∧
    (to_local_images [some "https://e.org/a.png", some "https://e.org/a.png"]).1
      ≠ [some "a.png", some "a.png"] := by
  constructor
  · decide
  · decide

/-- C5 (amended): for a body whose single image URL `u` occurs in two `<img>`
elements, `to_local_images` rewrites the first occurrence's `src` to the
deterministic local filename and records exactly one entry `(u, filename)` in
the download map, while the second occurrence keeps its original `src` and is
not re-added; moreover the download map never holds two entries for the same
source URL. -/
theorem c5_first_occurrence (u : String)
    (h1 : pyStartsWith "/" u = false) (h2 : u ≠ "") :
    to_local_images [some u, some u] =
      ([some (get_name_from_url u), some u], [(u, get_name_from_url u)]) ∧
    (∀ imgs : List (Option String),
      ((to_local_images imgs).2.map Prod.fst).Nodup) := by
  constructor
  · simp [to_local_images, to_local_images_go, h1, h2]
  · intro imgs
    exact to_local_images_go_nodup_keys imgs [] (by simp)

/-- Witness for C5: the concrete duplicated URL `https://e.org/a.png`. -/
theorem c5_first_occurrence_witness :
    to_local_images [some "https://e.org/a.png", some "https://e.org/a.png"] =
      ([some (get_name_from_url "https://e.org/a.png"), some "https://e.org/a.png"],
        [("https://e.org/a.png", get_name_from_url "https://e.org/a.png")]) :=
  (c5_first_occurrence "https://e.org/a.png" (by decide) (by decide)).1

end CienciaNasa
